import Mathlib

/-!
Verification development for the asset-retrieval client of the
planet_api_workshop notebooks.

The Python source consists of two notebooks.  The functions embedded here
are, by source location:

* setup_session            - boilerplate cell of the basics notebook
* the retry behaviour      - urllib3.util.retry.Retry as configured by
                             setup_session (total = 5, backoff_factor = 0.2,
                             status_forcelist = [429])
* search                   - 5_ActivationAndDownload.ipynb
* activate, _fetch_assets  - 5_ActivationAndDownload.ipynb
* wait_for_active          - 5_ActivationAndDownload.ipynb
* download                 - 5_ActivationAndDownload.ipynb

Network interaction is embedded by passing the behaviour of the remote
service as an explicit argument (a backend function or an oracle), and
exceptions are embedded with Except.  Machine-level details (sockets,
threads, clocks) are elided; retry delays are computed as rational numbers
exactly as the retry code computes them, without actually sleeping.
-/

namespace PlanetAPI

/-- Asset status as documented in the notebook: the categories are
inactive, activating and active. -/
inductive Status where
  | inactive
  | activating
  | active
deriving DecidableEq, Repr

/-- The Python exceptions the embedded code can raise.  httpError stands for
requests.exceptions.HTTPError as raised by Response.raise_for_status,
keyError and indexError for the builtin lookup failures, maxRetryError for
urllib3.exceptions.MaxRetryError raised when retries are exhausted (its
reason names the final status code).  The permissionError constructor is
never produced by any embedded function; it is declared so that statements
about a distinct permission-denied error kind can be expressed. -/
inductive PyError where
  | httpError (code : Nat)
  | keyError (key : String)
  | indexError
  | maxRetryError (lastCode : Nat)
  | permissionError
deriving DecidableEq, Repr

/-- Embeds Response.raise_for_status from the requests library: raises
HTTPError exactly for response codes in 400..599. -/
def raise_for_status (code : Nat) : Except PyError Unit :=
  if 400 ≤ code ∧ code < 600 then .error (.httpError code) else .ok ()

/-- The retry configuration constructed by setup_session:
Retry(total=5, backoff_factor=0.2, status_forcelist=[429]). -/
structure Retries where
  total : Nat
  backoff_factor : ℚ
  status_forcelist : List Nat
deriving DecidableEq, Repr

/-- A requests.Session as configured by setup_session: basic-auth pair
(api key used as the username, empty password) plus the mounted retry
policy.  The api key is Option String because os.getenv returns None when
the variable is unset and the code stores whatever it got. -/
structure Session where
  auth : Option String × String
  retries : Retries
deriving DecidableEq, Repr

/-- Embeds setup_session from the boilerplate cell.  The environment
variable PL_API_KEY is passed explicitly as env_PL_API_KEY, standing for
the value os.getenv would return.  Faithful to the source: when api_key is
None it falls back to the environment, and the resulting key - even when
it is still None - is stored as the basic-auth username; no check and no
exception. -/
def setup_session (api_key : Option String) (env_PL_API_KEY : Option String) : Session :=
  let api_key := match api_key with
    | none => env_PL_API_KEY
    | some k => some k
  { auth := (api_key, ""),
    retries := { total := 5, backoff_factor := 0.2, status_forcelist := [429] } }

/-- BACKOFF_MAX of urllib3 1.x Retry: delays are capped at 120 seconds. -/
def BACKOFF_MAX : ℚ := 120

/-- Embeds urllib3.util.retry.Retry.get_backoff_time: with n consecutive
errors recorded in the history the delay is backoff_factor * 2 ^ (n - 1),
except that the first retry sleeps 0, and the value is capped at
BACKOFF_MAX. -/
def get_backoff_time (backoff_factor : ℚ) (historyLen : Nat) : ℚ :=
  if historyLen ≤ 1 then 0
  else min BACKOFF_MAX (backoff_factor * 2 ^ (historyLen - 1))

/-- Embeds the urllib3 request/retry loop for a status-forcelist retry as
mounted by setup_session.  backend gives the status code the service
returns to the i-th attempt (numbered from 0).  total is the remaining
retry budget: a response whose code is in the forcelist consumes one
retry; when the budget is exhausted MaxRetryError is raised.  Each retry
first sleeps get_backoff_time applied to the number of attempts made so
far; the delays are recorded in order.  The result carries the final
status code (ok) or the error (err), together with the number of attempts
made and the recorded delays. -/
def urlopen_with_retry (backend : Nat → Nat) (forcelist : List Nat) (backoff_factor : ℚ) :
    Nat → Nat → List ℚ → Except (PyError × Nat × List ℚ) (Nat × Nat × List ℚ)
  | total, attempt, delays =>
    let code := backend attempt
    if code ∈ forcelist then
      match total with
      | 0 => .error (.maxRetryError code, attempt + 1, delays)
      | t + 1 =>
          urlopen_with_retry backend forcelist backoff_factor t (attempt + 1)
            (delays ++ [get_backoff_time backoff_factor (attempt + 1)])
    else .ok (code, attempt + 1, delays)

/-- One request issued through a Session, as served by the adapter that
setup_session mounts: the retry policy stored in the session drives
urlopen_with_retry. -/
def session_request (s : Session) (backend : Nat → Nat) :
    Except (PyError × Nat × List ℚ) (Nat × Nat × List ℚ) :=
  urlopen_with_retry backend s.retries.status_forcelist s.retries.backoff_factor
    s.retries.total 0 []

/-- One page of quick-search results: the features list of the response
body together with body._links.get(_next), the optional link to the next
page.  Links are abstracted to page identifiers. -/
structure PageBody (β : Type) where
  features : List β
  next : Option Nat
deriving DecidableEq, Repr

/-- Embeds the paging loop of search from 5_ActivationAndDownload.ipynb:
follow the next link while one is present, yielding the features of every
fetched page in order.  get_page gives the body the service returns for a
page link.  fuel bounds the number of link-following iterations so that
the loop is a total function; a run that would follow more links than it
has fuel returns none. -/
def search_loop {β : Type} (get_page : Nat → PageBody β) :
    Nat → Option Nat → Option (List β)
  | _, none => some []
  | 0, some _ => none
  | fuel + 1, some url =>
      let body := get_page url
      (search_loop get_page fuel body.next).map (fun rest => body.features ++ rest)

/-- Embeds search: the initial quick-search POST returns first_page; its
features are yielded first and then the paging loop runs on its next
link. -/
def search {β : Type} (first_page : PageBody β) (get_page : Nat → PageBody β)
    (fuel : Nat) : Option (List β) :=
  (search_loop get_page fuel first_page.next).map (fun rest => first_page.features ++ rest)

/-- A backend whose pages form a chain: page i holds the i-th feature
list and links to page i + 1 exactly when that page exists.  This is the
shape of every finite paginated response sequence. -/
def chain_page {β : Type} (pages : List (List β)) (i : Nat) : PageBody β :=
  { features := pages.getD i [],
    next := if i + 1 < pages.length then some (i + 1) else none }

/-- What the service tells the client about one feature when activate or
wait_for_active examines it: the status code of the GET on the assets url
issued by _fetch_assets, the status field of the named asset in the body,
and the status code of the GET on the activate link of that asset. -/
structure FeatureState where
  fetch_code : Nat
  status : Status
  activate_code : Nat
deriving DecidableEq, Repr

/-- The body of the per-feature loop of activate from
5_ActivationAndDownload.ipynb: _fetch_assets raises for a bad status code,
then the activation request is issued only when the asset status is
inactive, and its response code is raised on when bad.  The returned Bool
records whether an activation request was issued for this feature. -/
def activate_one (f : FeatureState) : Except PyError Bool :=
  match raise_for_status f.fetch_code with
  | .error e => .error e
  | .ok _ =>
    if f.status = Status.inactive then
      match raise_for_status f.activate_code with
      | .error e => .error e
      | .ok _ => .ok true
    else .ok false

/-- Embeds activate: iterate activate_one over the features, failing fast
on the first exception, and collect which features had an activation
request issued. -/
def activate : List FeatureState → Except PyError (List Bool)
  | [] => .ok []
  | f :: rest =>
    match activate_one f with
    | .error e => .error e
    | .ok b =>
      match activate rest with
      | .error e => .error e
      | .ok bs => .ok (b :: bs)

/-- The server-side effect of a completed successful activate call, as the
notebook documents the activation endpoint: a 202 means activation will
begin shortly, so an inactive asset moves to activating; assets already
activating or active are untouched. -/
def after_activation (f : FeatureState) : FeatureState :=
  { f with status := if f.status = Status.inactive then Status.activating else f.status }

/-- Embeds the loop of wait_for_active from 5_ActivationAndDownload.ipynb.
oracle gives the status the assets resource reports for a feature on a
given polling round (rounds numbered from 0); the code re-fetches every
feature on every round.  active is the list the source carries between
rounds (initially the sentinel [False]), round counts the rounds executed,
and trace records every status fetch as a pair of round number and
feature.  fuel bounds the iterations of the otherwise unbounded while
loop; none means the loop was still running when the fuel ran out.  On
termination the result is the number of rounds executed and the fetch
trace. -/
def wait_loop {α : Type} (oracle : Nat → α → Status) (results : List α) :
    Nat → List Bool → Nat → List (Nat × α) → Option (Nat × List (Nat × α))
  | fuel, active, round, trace =>
    if active.all id then some (round, trace)
    else
      match fuel with
      | 0 => none
      | f + 1 =>
          wait_loop oracle results f
            ((results.map (oracle round)).map (fun s => s == Status.active))
            (round + 1)
            (trace ++ results.map (fun item => (round, item)))

/-- Embeds wait_for_active: the loop starts from the sentinel [False] so
the first round always runs. -/
def wait_for_active {α : Type} (oracle : Nat → α → Status) (results : List α)
    (fuel : Nat) : Option (Nat × List (Nat × α)) :=
  wait_loop oracle results fuel [false] 0 []

/-- A mocked service that answers 429 to the first four requests and 200
afterwards. -/
def backend_429_four : Nat → Nat := fun i => if i < 4 then 429 else 200

/-- A mocked service that answers 429 to the first five requests and 200
afterwards. -/
def backend_429_five : Nat → Nat := fun i => if i < 5 then 429 else 200

/-- A mocked service that always answers 429. -/
def backend_429_forever : Nat → Nat := fun _ => 429

/-- An assets oracle under which no asset ever becomes active. -/
def never_active_oracle : Nat → Nat → Status := fun _ _ => Status.inactive

/-- The proposition that wait_for_active on a single feature that never
becomes active is still running after any number of loop iterations,
i.e. the call never returns. -/
def wait_never_terminates : Prop :=
  ∀ fuel, wait_for_active never_active_oracle [0] fuel = none

/-- An assets oracle for two features 0 and 1: feature 0 reports active
from round 1 on, feature 1 from round 2 on. -/
def two_feature_oracle : Nat → Nat → Status := fun round f =>
  if f = 0 then (if 1 ≤ round then Status.active else Status.inactive)
  else (if 2 ≤ round then Status.active else Status.inactive)

/-- The double-quote character, written by code so that no quote appears
inside a character literal. -/
def dquote : Char := Char.ofNat 34

/-- The newline character, the one character the regex dot does not
match. -/
def nl : Char := Char.ofNat 10

/-- The literal part of the regex the download code applies to the
Content-Disposition header: the characters of filename= followed by a
double quote. -/
def filename_pattern : List Char := "filename=".toList ++ [dquote]

/-- The largest index at which a double quote occurs in a character list,
if any. -/
def last_quote_index : List Char → Option Nat
  | [] => none
  | c :: t =>
    match last_quote_index t with
    | some j => some (j + 1)
    | none => if c = dquote then some 0 else none

/-- The greedy capture of the regex group after a matched filename=
opening: the dot matches any character except newline, the group needs
at least one character, and greediness extends the capture to the last
double quote available on the line.  none when no closing quote gives a
non-empty capture. -/
def greedy_capture (rest : List Char) : Option (List Char) :=
  let line := rest.takeWhile (fun c => c != nl)
  match last_quote_index line with
  | some j => if 1 ≤ j then some (line.take j) else none
  | none => none

/-- The first match of the regex applied by the download code, i.e. the
element re.findall would put first: scan left to right for an occurrence
of the literal filename= plus quote whose following greedy capture
succeeds. -/
def find_filename : List Char → Option (List Char)
  | [] => none
  | c :: t =>
    if (c :: t).take filename_pattern.length = filename_pattern then
      match greedy_capture ((c :: t).drop filename_pattern.length) with
      | some cap => some cap
      | none => find_filename t
    else find_filename t

/-- Dictionary lookup on the response headers, as
response.headers [ key ] behaves: the value when the key is present. -/
def headers_get (headers : List (String × String)) (key : String) : Option String :=
  (headers.find? (fun p => p.1 == key)).map (fun p => p.2)

/-- The filename derivation of download: reading the Content-Disposition
header raises KeyError when absent, and taking element 0 of the findall
result raises IndexError when the regex found nothing. -/
def derive_filename (headers : List (String × String)) : Except PyError String :=
  match headers_get headers "Content-Disposition" with
  | none => .error (.keyError "Content-Disposition")
  | some d =>
    match find_filename d.toList with
    | none => .error PyError.indexError
    | some cap => .ok (String.mk cap)

/-- The semantic notion of a parsable filename token in a header value:
somewhere in the string the literal filename= plus quote is followed by a
non-empty newline-free run of characters and a closing quote. -/
def has_filename_token (d : String) : Prop :=
  ∃ pre cap post, d.toList = pre ++ filename_pattern ++ cap ++ dquote :: post ∧
    cap ≠ [] ∧ ∀ c ∈ cap, c ≠ nl

/-- What download does with one feature once the streamed response is in
hand: the path passed to open for writing and the path the generator
yields. -/
structure DownloadResult where
  written_path : String
  yielded : String
deriving DecidableEq, Repr

/-- The per-feature tail of download from 5_ActivationAndDownload.ipynb:
derive the filename from the headers, open exactly that string as the
local path, stream the body into it, and yield the same string.  There is
no destination-directory input and the derived name is not transformed in
any way. -/
def download_one (headers : List (String × String)) : Except PyError DownloadResult :=
  match derive_filename headers with
  | .error e => .error e
  | .ok filename => .ok { written_path := filename, yielded := filename }

/-- A JSON-like value, enough structure to express the quick-search
request body the search code builds. -/
inductive Json where
  | str : String → Json
  | arr : List Json → Json
  | obj : List (String × Json) → Json

/-- Embeds the request body built inside search: the three filters, their
AndFilter combination, and the top-level object with item_types and
filter. -/
def search_request_body (geom : Json) (start_date end_date item_type asset : String) : Json :=
  let perm_filter := Json.obj
    [("type", Json.str "PermissionFilter"),
     ("config", Json.arr [Json.str ("assets." ++ asset ++ ":download")])]
  let geom_filter := Json.obj
    [("type", Json.str "GeometryFilter"),
     ("field_name", Json.str "geometry"),
     ("config", geom)]
  let date_filter := Json.obj
    [("type", Json.str "DateRangeFilter"),
     ("field_name", Json.str "acquired"),
     ("config", Json.obj [("gt", Json.str start_date), ("lte", Json.str end_date)])]
  let and_filter := Json.obj
    [("type", Json.str "AndFilter"),
     ("config", Json.arr [perm_filter, geom_filter, date_filter])]
  Json.obj [("item_types", Json.arr [Json.str item_type]), ("filter", and_filter)]

/-- The request body as the specification describes it, assembled
independently of the code above: item_types the singleton of the item
type, and a filter tree that is an AndFilter over a PermissionFilter
requiring download permission on the named asset, a GeometryFilter on the
geometry field carrying the given geometry, and a DateRangeFilter on the
acquired field whose config makes the start exclusive (gt) and the end
inclusive (lte). -/
def search_request_spec (geom : Json) (start_date end_date item_type asset : String) : Json :=
  Json.obj
    [("item_types", Json.arr [Json.str item_type]),
     ("filter", Json.obj
       [("type", Json.str "AndFilter"),
        ("config", Json.arr
          [Json.obj
            [("type", Json.str "PermissionFilter"),
             ("config", Json.arr [Json.str ("assets." ++ asset ++ ":download")])],
           Json.obj
            [("type", Json.str "GeometryFilter"),
             ("field_name", Json.str "geometry"),
             ("config", geom)],
           Json.obj
            [("type", Json.str "DateRangeFilter"),
             ("field_name", Json.str "acquired"),
             ("config", Json.obj
               [("gt", Json.str start_date), ("lte", Json.str end_date)])]])])]

/-! ## Helper lemmas -/

/-- raise_for_status either succeeds or raises an HTTPError carrying the
very code it was given; it produces no other error. -/
theorem raise_for_status_cases (code : Nat) :
    raise_for_status code = .ok () ∨ raise_for_status code = .error (.httpError code) := by
  unfold raise_for_status
  split
  · exact Or.inr rfl
  · exact Or.inl rfl

/-- raise_for_status on a code in 400..599 raises HTTPError with that
code. -/
theorem raise_for_status_bad (code : Nat) (h4 : 400 ≤ code) (h6 : code < 600) :
    raise_for_status code = .error (.httpError code) := by
  unfold raise_for_status
  rw [if_pos ⟨h4, h6⟩]

/-- activate_one can only raise the HTTPError of one of the two requests
it issues; in particular it never raises a distinct permission error. -/
theorem activate_one_no_permissionError (f : FeatureState) :
    activate_one f ≠ .error PyError.permissionError := by
  unfold activate_one
  rcases raise_for_status_cases f.fetch_code with h | h <;> simp only [h]
  · by_cases hs : f.status = Status.inactive
    · simp only [if_pos hs]
      rcases raise_for_status_cases f.activate_code with h2 | h2 <;> simp only [h2] <;> simp
    · simp only [if_neg hs]
      simp
  · simp

/-! ## C7: the quick-search request body -/

/-- C7: for every geometry, time range, item type and asset name, the
request body search builds is exactly the composite described by the
specification: item_types the singleton list, and an AndFilter over the
PermissionFilter with config assets.NAME:download, the GeometryFilter on
the geometry field with the given geometry, and the DateRangeFilter on
the acquired field with gt the start (exclusive) and lte the end
(inclusive). -/
theorem search_request_matches_spec (geom : Json)
    (start_date end_date item_type asset : String) :
    search_request_body geom start_date end_date item_type asset =
      search_request_spec geom start_date end_date item_type asset := rfl

/-! ## C4: key resolution in setup_session -/

/-- Counterexample to C4 as stated: with no api_key argument and the
PL_API_KEY environment variable unset, setup_session does not fail with
any ConfigurationError; it returns an ordinary session whose basic-auth
username is the absent value. -/
theorem setup_session_missing_key_returns :
    setup_session none none =
      { auth := (none, ""),
        retries := { total := 5, backoff_factor := 0.2, status_forcelist := [429] } } := rfl

/-- C4 as amended: setup_session called with no api_key argument takes the
key from the PL_API_KEY environment variable, whatever it is, and an
explicit argument takes priority over the environment; when neither is
set, no error is raised and the session is built with an absent basic-auth
username. -/
theorem setup_session_env_fallback (k : String) (env : Option String) :
    (setup_session none env).auth = (env, "") ∧
    (setup_session (some k) env).auth = (some k, "") := by
  constructor <;> rfl

/-! ## C2: error kind of a 401 during activate -/

/-- Counterexample to C2 as stated: on a feature whose asset status reads
inactive, an activation response of 401 makes activate raise the generic
HTTPError carrying 401, not a distinct permission error, and a 500 raises
the same kind of error. -/
theorem activate_401_counterexample :
    activate_one { fetch_code := 200, status := Status.inactive, activate_code := 401 } =
        .error (.httpError 401) ∧
    activate_one { fetch_code := 200, status := Status.inactive, activate_code := 401 } ≠
        .error PyError.permissionError ∧
    activate_one { fetch_code := 200, status := Status.inactive, activate_code := 500 } =
        .error (.httpError 500) := by
  exact ⟨rfl, activate_one_no_permissionError _, rfl⟩

/-- C2 as amended: when the asset-status read during activate shows
inactive and the activation request returns any non-2xx code (401 and 500
alike), activate raises the one generic HTTPError carrying that code;
no distinct permission error kind exists anywhere in activate. -/
theorem activate_401_generic_http (code : Nat) (h4 : 400 ≤ code) (h6 : code < 600) :
    activate_one { fetch_code := 200, status := Status.inactive, activate_code := code } =
        .error (.httpError code) ∧
    ∀ f : FeatureState, activate_one f ≠ .error PyError.permissionError := by
  refine ⟨?_, activate_one_no_permissionError⟩
  have h200 : raise_for_status 200 = .ok () := rfl
  simp [activate_one, h200, raise_for_status_bad code h4 h6]

/-- Witness for activate_401_generic_http at the concrete code 401. -/
theorem activate_401_generic_http_witness :
    activate_one { fetch_code := 200, status := Status.inactive, activate_code := 401 } =
        .error (.httpError 401) ∧
    ∀ f : FeatureState, activate_one f ≠ .error PyError.permissionError :=
  activate_401_generic_http 401 (by omega) (by omega)

/-! ## C6: activate is a no-op on non-inactive assets and is idempotent -/

/-- C6: when activate completes without an exception, an activation
request was issued exactly for the features whose asset status read
inactive - so none for a status of activating or active - and a second
run over the server state left behind by the first (inactive assets now
activating) issues no activation request at all. -/
theorem activate_noop_idempotent (fs : List FeatureState) (flags : List Bool)
    (h : activate fs = .ok flags) :
    flags = fs.map (fun f => decide (f.status = Status.inactive)) ∧
    activate (fs.map after_activation) = .ok (List.replicate fs.length false) := by
  induction fs generalizing flags with
  | nil =>
    unfold activate at h
    cases h
    exact ⟨rfl, rfl⟩
  | cons f rest ih =>
    unfold activate at h
    rcases h1 : activate_one f with e | b <;> rw [h1] at h
    · cases h
    rcases h2 : activate rest with e | bs <;> rw [h2] at h
    · cases h
    cases h
    obtain ⟨ihmap, ihrep⟩ := ih bs h2
    have hfetch : raise_for_status f.fetch_code = .ok () := by
      rcases raise_for_status_cases f.fetch_code with hc | hc
      · exact hc
      · unfold activate_one at h1
        rw [hc] at h1
        cases h1
    have hflag : b = decide (f.status = Status.inactive) := by
      unfold activate_one at h1
      rw [hfetch] at h1
      by_cases hs : f.status = Status.inactive
      · rw [if_pos hs] at h1
        rcases raise_for_status_cases f.activate_code with hc | hc <;> rw [hc] at h1
        · cases h1
          simp [hs]
        · cases h1
      · rw [if_neg hs] at h1
        cases h1
        simp [hs]
    constructor
    · simp [hflag, ihmap]
    · have hone : activate_one (after_activation f) = .ok false := by
        unfold activate_one after_activation
        simp only [hfetch]
        have : ¬ ((if f.status = Status.inactive then Status.activating else f.status) =
            Status.inactive) := by
          by_cases hs : f.status = Status.inactive <;> simp [hs]
        simp [this]
      unfold activate
      simp only [List.map_cons, hone, ihrep, List.length_cons, List.replicate_succ]

/-- Witness for activate_noop_idempotent: a batch of one already active
and one inactive feature; the completed run issued a request only for the
inactive one, and the follow-up run issues none. -/
theorem activate_noop_idempotent_witness :
    ([false, true] : List Bool) =
      ([⟨200, Status.active, 202⟩, ⟨200, Status.inactive, 202⟩] : List FeatureState).map
        (fun f => decide (f.status = Status.inactive)) ∧
    activate (([⟨200, Status.active, 202⟩, ⟨200, Status.inactive, 202⟩] :
        List FeatureState).map after_activation) =
      .ok (List.replicate ([⟨200, Status.active, 202⟩, ⟨200, Status.inactive, 202⟩] :
        List FeatureState).length false) :=
  activate_noop_idempotent
    [⟨200, Status.active, 202⟩, ⟨200, Status.inactive, 202⟩] [false, true] rfl

/-! ## C10: wait_for_active on an empty batch -/

/-- C10: on an empty feature list wait_for_active terminates after exactly
one polling round - the initial [False] sentinel forces the round, the
round issues zero status fetches, and the empty conjunction then reads
all-active. -/
theorem wait_for_active_empty {α : Type} (oracle : Nat → α → Status) (fuel : Nat)
    (h : 1 ≤ fuel) :
    wait_for_active oracle ([] : List α) fuel = some (1, []) := by
  obtain ⟨f, rfl⟩ : ∃ f, fuel = f + 1 := ⟨fuel - 1, by omega⟩
  unfold wait_for_active
  rw [wait_loop.eq_def]
  simp only [List.all_cons, List.all_nil, id, Bool.and_true, Bool.false_eq_true, if_false,
    List.map_nil, List.nil_append]
  rw [wait_loop.eq_def]
  simp

/-- Witness for wait_for_active_empty with one unit of fuel and a
concrete oracle. -/
theorem wait_for_active_empty_witness :
    wait_for_active never_active_oracle ([] : List Nat) 1 = some (1, []) :=
  wait_for_active_empty never_active_oracle 1 (by omega)

/-! ## C5: pagination of search -/

/-- The paging loop over a chain backend collects exactly the features of
the pages after position i, in order, provided the fuel covers the pages
that remain. -/
theorem search_loop_chain {β : Type} (pages : List (List β)) :
    ∀ (fuel i : Nat), pages.length ≤ i + fuel + 1 →
      search_loop (chain_page pages) fuel (chain_page pages i).next =
        some ((pages.drop (i + 1)).flatten) := by
  intro fuel
  induction fuel with
  | zero =>
    intro i hi
    have hnext : (chain_page pages i).next = none := by
      unfold chain_page
      simp only
      rw [if_neg (by omega)]
    rw [hnext]
    unfold search_loop
    rw [List.drop_eq_nil_of_le (by omega)]
    rfl
  | succ f ih =>
    intro i hi
    by_cases hlt : i + 1 < pages.length
    · have hnext : (chain_page pages i).next = some (i + 1) := by
        unfold chain_page
        simp only
        rw [if_pos hlt]
      have hdrop : pages.drop (i + 1) = pages[i + 1] :: pages.drop (i + 1 + 1) :=
        List.drop_eq_getElem_cons hlt
      have hget : (chain_page pages (i + 1)).features = pages[i + 1] := by
        unfold chain_page
        simp only
        exact List.getD_eq_getElem pages [] hlt
      rw [hnext]
      unfold search_loop
      dsimp only
      rw [ih (i + 1) (by omega), Option.map_some', hget]
      conv_rhs => rw [hdrop]
      rw [List.flatten_cons]
    · have hnext : (chain_page pages i).next = none := by
        unfold chain_page
        simp only
        rw [if_neg hlt]
      rw [hnext]
      unfold search_loop
      rw [List.drop_eq_nil_of_le (by omega)]
      rfl

/-- C5: over every finite chain of pages (page i linking to page i + 1,
the last page carrying no next link) with enough fuel for the chain,
search yields exactly the concatenation of the feature lists of all pages
in server order - no reordering, no deduplication - terminating at the
page with no next link. -/
theorem search_paginates {β : Type} (pages : List (List β)) (fuel : Nat)
    (hne : pages ≠ []) (hfuel : pages.length ≤ fuel + 1) :
    search (chain_page pages 0) (chain_page pages) fuel = some pages.flatten := by
  unfold search
  rw [search_loop_chain pages fuel 0 (by omega)]
  obtain ⟨p, rest, rfl⟩ : ∃ p rest, pages = p :: rest := by
    cases pages with
    | nil => exact absurd rfl hne
    | cons p rest => exact ⟨p, rest, rfl⟩
  simp [chain_page]

/-- Witness for search_paginates: three pages of two features each yield
the six features in page order. -/
theorem search_paginates_witness :
    search (chain_page [[1, 2], [3, 4], [5, 6]] 0)
        (chain_page ([[1, 2], [3, 4], [5, 6]] : List (List Nat))) 2 =
      some ([[1, 2], [3, 4], [5, 6]] : List (List Nat)).flatten :=
  search_paginates [[1, 2], [3, 4], [5, 6]] 2 (by simp) (by simp)

/-! ## C3: the retry policy of a session request -/

/-- Characterization of a successful run of the retry loop: the final
code is what the backend answered to the last attempt and is not in the
forcelist, every earlier attempt got a forcelist answer, at most
total + 1 attempts happen, and the recorded delays are get_backoff_time
of the successive history lengths. -/
theorem urlopen_ok_spec (backend : Nat → Nat) (bf : ℚ) :
    ∀ (total attempt : Nat) (d0 : List ℚ) (code n : Nat) (ds : List ℚ),
      urlopen_with_retry backend [429] bf total attempt d0 = .ok (code, n, ds) →
      attempt + 1 ≤ n ∧ n ≤ attempt + total + 1 ∧ code = backend (n - 1) ∧ code ≠ 429 ∧
      (∀ i, attempt ≤ i → i < n - 1 → backend i = 429) ∧
      ds = d0 ++ (List.range' attempt (n - 1 - attempt)).map
        (fun i => get_backoff_time bf (i + 1)) := by
  intro total
  induction total with
  | zero =>
    intro attempt d0 code n ds h
    rw [urlopen_with_retry.eq_def] at h
    dsimp only at h
    by_cases hc : backend attempt ∈ ([429] : List Nat)
    · rw [if_pos hc] at h
      cases h
    · rw [if_neg hc] at h
      injection h with h
      injection h with h1 h
      injection h with h2 h3
      subst h1
      subst h2
      subst h3
      simp only [List.mem_singleton] at hc
      refine ⟨by omega, by omega, by simp, hc, by omega, ?_⟩
      simp
  | succ t ih =>
    intro attempt d0 code n ds h
    rw [urlopen_with_retry.eq_def] at h
    dsimp only at h
    by_cases hc : backend attempt ∈ ([429] : List Nat)
    · rw [if_pos hc] at h
      obtain ⟨h1, h2, h3, h4, h5, h6⟩ := ih (attempt + 1)
        (d0 ++ [get_backoff_time bf (attempt + 1)]) code n ds h
      simp only [List.mem_singleton] at hc
      refine ⟨by omega, by omega, h3, h4, ?_, ?_⟩
      · intro i hi1 hi2
        rcases Nat.eq_or_lt_of_le hi1 with rfl | hlt
        · exact hc
        · exact h5 i hlt hi2
      · rw [h6]
        have hk : n - 1 - attempt = (n - 1 - (attempt + 1)) + 1 := by omega
        rw [hk, List.range'_succ, List.map_cons, List.append_assoc]
        rfl
    · rw [if_neg hc] at h
      injection h with h
      injection h with h1 h
      injection h with h2 h3
      subst h1
      subst h2
      subst h3
      simp only [List.mem_singleton] at hc
      refine ⟨by omega, by omega, by simp, hc, by omega, ?_⟩
      simp

/-- Characterization of a retry-exhausted run of the retry loop: failure
is exactly MaxRetryError carrying the final forcelist answer, after
total + 1 attempts all answered from the forcelist, with the delays of
every retry recorded. -/
theorem urlopen_err_spec (backend : Nat → Nat) (bf : ℚ) :
    ∀ (total attempt : Nat) (d0 : List ℚ) (e : PyError) (n : Nat) (ds : List ℚ),
      urlopen_with_retry backend [429] bf total attempt d0 = .error (e, n, ds) →
      e = .maxRetryError (backend (n - 1)) ∧ n = attempt + total + 1 ∧
      (∀ i, attempt ≤ i → i < n → backend i = 429) ∧
      ds = d0 ++ (List.range' attempt total).map (fun i => get_backoff_time bf (i + 1)) := by
  intro total
  induction total with
  | zero =>
    intro attempt d0 e n ds h
    rw [urlopen_with_retry.eq_def] at h
    dsimp only at h
    by_cases hc : backend attempt ∈ ([429] : List Nat)
    · rw [if_pos hc] at h
      injection h with h
      injection h with h1 h
      injection h with h2 h3
      subst h1
      subst h2
      subst h3
      simp only [List.mem_singleton] at hc
      refine ⟨by simp, by omega, ?_, by simp⟩
      intro i hi1 hi2
      have : i = attempt := by omega
      subst this
      exact hc
    · rw [if_neg hc] at h
      cases h
  | succ t ih =>
    intro attempt d0 e n ds h
    rw [urlopen_with_retry.eq_def] at h
    dsimp only at h
    by_cases hc : backend attempt ∈ ([429] : List Nat)
    · rw [if_pos hc] at h
      obtain ⟨h1, h2, h3, h4⟩ := ih (attempt + 1)
        (d0 ++ [get_backoff_time bf (attempt + 1)]) e n ds h
      simp only [List.mem_singleton] at hc
      refine ⟨h1, by omega, ?_, ?_⟩
      · intro i hi1 hi2
        rcases Nat.eq_or_lt_of_le hi1 with rfl | hlt
        · exact hc
        · exact h3 i hlt hi2
      · rw [h4, List.range'_succ, List.map_cons, List.append_assoc]
        rfl
    · rw [if_neg hc] at h
      cases h

/-- Counterexample to C3 as stated: a backend answering 429 to exactly the
first five requests and then 200 makes the session request succeed on a
sixth attempt, so more than 5 attempts are made in total, and the delay
before the first retry is 0, not 0.2. -/
theorem session_retry_counterexample :
    session_request (setup_session (some "KEY") none) backend_429_five =
      .ok (200, 6, (List.range 5).map (fun i => get_backoff_time 0.2 (i + 1))) ∧
    get_backoff_time 0.2 1 = 0 ∧ (0 : ℚ) ≠ 0.2 := by
  refine ⟨rfl, rfl, by norm_num⟩

/-- C3 as amended: a session request makes at most 6 attempts (one
initial plus the 5 configured retries), a retry is triggered only by a
429 answer, the recorded delay before retry n is get_backoff_time applied
to n - that is 0 for the first retry and 0.2 * 2 ^ (n - 1) capped at 120
afterwards - a backend answering 429 four times then 200 succeeds, and a
backend answering 429 to six attempts exhausts the retries and fails with
MaxRetryError naming the final 429. -/
theorem session_retry_policy (api_key env : Option String) (backend : Nat → Nat) :
    (∀ code n delays,
       session_request (setup_session api_key env) backend = .ok (code, n, delays) →
       n ≤ 6 ∧ code = backend (n - 1) ∧ code ≠ 429 ∧
       (∀ i, i < n - 1 → backend i = 429) ∧
       delays = (List.range (n - 1)).map (fun i => get_backoff_time 0.2 (i + 1))) ∧
    (∀ e n delays,
       session_request (setup_session api_key env) backend = .error (e, n, delays) →
       e = .maxRetryError (backend 5) ∧ n = 6 ∧ (∀ i, i < 6 → backend i = 429) ∧
       delays = (List.range 5).map (fun i => get_backoff_time 0.2 (i + 1))) := by
  have hreq : session_request (setup_session api_key env) backend =
      urlopen_with_retry backend [429] 0.2 5 0 [] := rfl
  constructor
  · intro code n delays h
    rw [hreq] at h
    obtain ⟨h1, h2, h3, h4, h5, h6⟩ := urlopen_ok_spec backend 0.2 5 0 [] code n delays h
    refine ⟨by omega, h3, h4, fun i hi => h5 i (by omega) hi, ?_⟩
    rw [h6, List.nil_append, List.range_eq_range']
    have : n - 1 - 0 = n - 1 := by omega
    rw [this]
  · intro e n delays h
    rw [hreq] at h
    obtain ⟨h1, h2, h3, h4⟩ := urlopen_err_spec backend 0.2 5 0 [] e n delays h
    have hn : n = 6 := by omega
    subst hn
    refine ⟨h1, rfl, fun i hi => h3 i (by omega) hi, ?_⟩
    rw [h4, List.nil_append, List.range_eq_range']

/-- Witness for session_retry_policy: the success conjunct applied to the
backend that answers 429 four times then 200, and the failure conjunct to
the backend that always answers 429. -/
theorem session_retry_policy_witness :
    (5 ≤ 6 ∧ (200 : Nat) = backend_429_four (5 - 1) ∧ (200 : Nat) ≠ 429 ∧
      (∀ i, i < 5 - 1 → backend_429_four i = 429) ∧
      (List.range (5 - 1)).map (fun i => get_backoff_time 0.2 (i + 1)) =
        (List.range (5 - 1)).map (fun i => get_backoff_time 0.2 (i + 1))) ∧
    (PyError.maxRetryError 429 = .maxRetryError (backend_429_forever 5) ∧ (6 : Nat) = 6 ∧
      (∀ i, i < 6 → backend_429_forever i = 429) ∧
      (List.range 5).map (fun i => get_backoff_time 0.2 (i + 1)) =
        (List.range 5).map (fun i => get_backoff_time 0.2 (i + 1))) :=
  ⟨(session_retry_policy (some "KEY") none backend_429_four).1 200 5
      ((List.range (5 - 1)).map (fun i => get_backoff_time 0.2 (i + 1))) (by rfl),
   (session_retry_policy (some "KEY") none backend_429_forever).2 (.maxRetryError 429) 6
      ((List.range 5).map (fun i => get_backoff_time 0.2 (i + 1))) (by rfl)⟩

/-! ## C1: wait_for_active polls the whole batch every round -/

/-- The all-active test the loop performs on the mapped status list is
exactly the statement that every feature reports active. -/
theorem all_map_active_iff {α : Type} (g : α → Status) (l : List α) :
    ((l.map g).map (fun s => s == Status.active)).all id = true ↔
      ∀ x ∈ l, g x = Status.active := by
  simp [List.all_eq_true]

/-- Invariant of the polling loop: entered after round rounds with the
statuses of the last round and the canonical fetch trace, a terminating
run executes at least one more round, ends with the canonical trace of
all its rounds, ends on a round where every feature reads active, and on
no earlier round from round on did every feature read active. -/
theorem wait_loop_spec {α : Type} (oracle : Nat → α → Status) (results : List α) :
    ∀ (fuel round r : Nat) (tr : List (Nat × α)),
      wait_loop oracle results fuel
        ((results.map (oracle round)).map (fun s => s == Status.active)) (round + 1)
        ((List.range (round + 1)).flatMap (fun k => results.map (fun item => (k, item)))) =
        some (r, tr) →
      round + 1 ≤ r ∧
      tr = (List.range r).flatMap (fun k => results.map (fun item => (k, item))) ∧
      (∀ item ∈ results, oracle (r - 1) item = Status.active) ∧
      (∀ k, round ≤ k → k + 1 < r → ¬ ∀ item ∈ results, oracle k item = Status.active) := by
  intro fuel
  induction fuel with
  | zero =>
    intro round r tr h
    rw [wait_loop.eq_def] at h
    dsimp only at h
    by_cases hall :
        ((results.map (oracle round)).map (fun s => s == Status.active)).all id = true
    · rw [if_pos hall] at h
      injection h with h
      injection h with ha hb
      subst ha
      subst hb
      refine ⟨Nat.le_refl _, rfl, ?_, ?_⟩
      · exact (all_map_active_iff (oracle round) results).mp hall
      · intro k hk1 hk2
        omega
    · rw [if_neg hall] at h
      cases h
  | succ f ih =>
    intro round r tr h
    rw [wait_loop.eq_def] at h
    dsimp only at h
    by_cases hall :
        ((results.map (oracle round)).map (fun s => s == Status.active)).all id = true
    · rw [if_pos hall] at h
      injection h with h
      injection h with ha hb
      subst ha
      subst hb
      refine ⟨Nat.le_refl _, rfl, ?_, ?_⟩
      · exact (all_map_active_iff (oracle round) results).mp hall
      · intro k hk1 hk2
        omega
    · rw [if_neg hall] at h
      have htr : ((List.range (round + 1)).flatMap
            (fun k => results.map (fun item => (k, item)))) ++
          results.map (fun item => (round + 1, item)) =
          (List.range (round + 1 + 1)).flatMap
            (fun k => results.map (fun item => (k, item))) := by
        rw [List.range_succ (n := round + 1), List.flatMap_append]
        simp
      rw [htr] at h
      obtain ⟨h1, h2, h3, h4⟩ := ih (round + 1) r tr h
      refine ⟨by omega, h2, h3, ?_⟩
      intro k hk1 hk2
      rcases Nat.eq_or_lt_of_le hk1 with rfl | hlt
      · intro hforall
        exact hall ((all_map_active_iff (oracle round) results).mpr hforall)
      · exact h4 k hlt hk2

/-- C1 as amended: whenever wait_for_active returns, it has executed at
least one polling round, its fetch trace is exactly one status check per
feature per round - the whole batch is re-queried on every round,
including features already active - it returns precisely when the last
round read active for every feature, and on no earlier completed round
was every feature active.  The source function has no poll_interval and
no deadline: rounds repeat back to back, and termination happens only
through the all-active exit. -/
theorem wait_for_active_poll_batch {α : Type} (oracle : Nat → α → Status)
    (results : List α) (fuel r : Nat) (tr : List (Nat × α))
    (h : wait_for_active oracle results fuel = some (r, tr)) :
    1 ≤ r ∧
    tr = (List.range r).flatMap (fun k => results.map (fun item => (k, item))) ∧
    (∀ item ∈ results, oracle (r - 1) item = Status.active) ∧
    (∀ k, k + 1 < r → ¬ ∀ item ∈ results, oracle k item = Status.active) := by
  unfold wait_for_active at h
  cases fuel with
  | zero =>
    rw [wait_loop.eq_def] at h
    simp at h
  | succ f =>
    rw [wait_loop.eq_def] at h
    dsimp only at h
    rw [if_neg (by simp)] at h
    have h0 : ([] : List (Nat × α)) ++ results.map (fun item => ((0 : Nat), item)) =
        (List.range (0 + 1)).flatMap (fun k => results.map (fun item => (k, item))) := by
      simp [List.range_succ]
    rw [h0] at h
    obtain ⟨h1, h2, h3, h4⟩ := wait_loop_spec oracle results f 0 r tr h
    exact ⟨by omega, h2, h3, fun k hk => h4 k (Nat.zero_le k) hk⟩

/-- Witness for wait_for_active_poll_batch: two features, the first
active from round 1, the second from round 2; the loop returns after
round 2 (three rounds executed) and the trace shows both features
fetched on every one of the three rounds. -/
theorem wait_for_active_poll_batch_witness :
    ([(0, 0), (0, 1), (1, 0), (1, 1), (2, 0), (2, 1)] : List (Nat × Nat)) =
      (List.range 3).flatMap (fun k => ([0, 1] : List Nat).map (fun item => (k, item))) :=
  (wait_for_active_poll_batch two_feature_oracle [0, 1] 10 3
      [(0, 0), (0, 1), (1, 0), (1, 1), (2, 0), (2, 1)] (by rfl)).2.1

/-- The polling loop on a never-active single feature stays in the same
state forever: whatever the remaining fuel, it runs out without
returning. -/
theorem wait_loop_never :
    ∀ (fuel round : Nat) (tr : List (Nat × Nat)),
      wait_loop never_active_oracle [0] fuel [false] round tr = none := by
  intro fuel
  induction fuel with
  | zero =>
    intro round tr
    rw [wait_loop.eq_def]
    simp
  | succ f ih =>
    intro round tr
    rw [wait_loop.eq_def]
    dsimp only
    rw [if_neg (by simp)]
    exact ih (round + 1) _

/-- Counterexample to C1 as stated: on a feature whose asset never
becomes active, wait_for_active never returns at all - no amount of loop
iterations completes - so there is no deadline after which it fails with
a PollTimeoutError, and no poll_interval paces the rounds; the source
accepts neither parameter. -/
theorem wait_for_active_no_deadline : wait_never_terminates := by
  intro fuel
  unfold wait_for_active
  exact wait_loop_never fuel 0 []

/-! ## C8 and C9: filename derivation in download -/

/-- A successful last_quote_index splits the list at a double quote whose
position is the returned index. -/
theorem last_quote_index_spec :
    ∀ (l : List Char) (j : Nat), last_quote_index l = some j →
      ∃ pre post, l = pre ++ dquote :: post ∧ pre.length = j := by
  intro l
  induction l with
  | nil =>
    intro j h
    cases h
  | cons c t ih =>
    intro j h
    unfold last_quote_index at h
    rcases ht : last_quote_index t with _ | j0 <;> rw [ht] at h
    · by_cases hc : c = dquote
      · rw [if_pos hc] at h
        injection h with h
        subst h
        exact ⟨[], t, by simp [hc], rfl⟩
      · rw [if_neg hc] at h
        cases h
    · injection h with h
      subst h
      obtain ⟨pre, post, hsplit, hlen⟩ := ih j0 ht
      exact ⟨c :: pre, post, by simp [hsplit], by simp [hlen]⟩

/-- A successful greedy capture splits its input into the non-empty
newline-free capture, the closing double quote, and a remainder. -/
theorem greedy_capture_spec (rest : List Char) (cap : List Char)
    (h : greedy_capture rest = some cap) :
    ∃ post, rest = cap ++ dquote :: post ∧ cap ≠ [] ∧ ∀ c ∈ cap, c ≠ nl := by
  unfold greedy_capture at h
  dsimp only at h
  rcases hq : last_quote_index (rest.takeWhile (fun c => c != nl)) with _ | j <;>
    rw [hq] at h <;> dsimp only at h
  · exact Option.noConfusion h
  · by_cases hj : 1 ≤ j
    · rw [if_pos hj] at h
      injection h with h
      subst h
      obtain ⟨pre, post0, hsplit, hlen⟩ := last_quote_index_spec _ j hq
      have hcap : (rest.takeWhile (fun c => c != nl)).take j = pre := by
        rw [hsplit, ← hlen, List.take_left]
      refine ⟨post0 ++ rest.dropWhile (fun c => c != nl), ?_, ?_, ?_⟩
      · rw [hcap]
        conv_lhs => rw [← List.takeWhile_append_dropWhile (fun c => c != nl) rest, hsplit]
        simp
      · rw [hcap]
        intro hnil
        rw [hnil] at hlen
        simp at hlen
        omega
      · intro c hc
        rw [hcap] at hc
        have hmem : c ∈ rest.takeWhile (fun c => c != nl) := by
          rw [hsplit]
          exact List.mem_append_left _ hc
        have := List.mem_takeWhile_imp hmem
        simpa using this
    · rw [if_neg hj] at h
      cases h

/-- Soundness of the regex scan: a found capture really occurs in the
scanned string as the literal filename= plus quote, the capture, and a
closing quote, with the capture non-empty and newline-free. -/
theorem find_filename_sound :
    ∀ (s cap : List Char), find_filename s = some cap →
      ∃ pre post, s = pre ++ filename_pattern ++ cap ++ dquote :: post ∧
        cap ≠ [] ∧ ∀ c ∈ cap, c ≠ nl := by
  intro s
  induction s with
  | nil =>
    intro cap h
    cases h
  | cons c t ih =>
    intro cap h
    unfold find_filename at h
    by_cases hp : (c :: t).take filename_pattern.length = filename_pattern
    · rw [if_pos hp] at h
      rcases hg : greedy_capture ((c :: t).drop filename_pattern.length) with _ | cap0 <;>
        rw [hg] at h
      · obtain ⟨pre, post, hsplit, hne, hnl⟩ := ih cap h
        exact ⟨c :: pre, post, by simp [hsplit], hne, hnl⟩
      · injection h with h
        subst h
        obtain ⟨post, hsplit, hne, hnl⟩ := greedy_capture_spec _ _ hg
        refine ⟨[], post, ?_, hne, hnl⟩
        conv_lhs => rw [← List.take_append_drop filename_pattern.length (c :: t)]
        rw [hp, hsplit]
        simp
    · rw [if_neg hp] at h
      obtain ⟨pre, post, hsplit, hne, hnl⟩ := ih cap h
      exact ⟨c :: pre, post, by simp [hsplit], hne, hnl⟩

/-- C8: download derives the local filename by parsing the
Content-Disposition header with the filename regex, and it fails whenever
that header is absent (the dictionary access raises KeyError) or carries
no parsable filename token (indexing the empty findall result raises
IndexError); when it succeeds, the name really is the capture of a
filename token present in the header value. -/
theorem derive_filename_spec (headers : List (String × String)) :
    (headers_get headers "Content-Disposition" = none →
       derive_filename headers = .error (.keyError "Content-Disposition")) ∧
    (∀ d, headers_get headers "Content-Disposition" = some d →
       ¬ has_filename_token d → derive_filename headers = .error PyError.indexError) ∧
    (∀ d f, headers_get headers "Content-Disposition" = some d →
       derive_filename headers = .ok f →
       ∃ pre post, d.toList = pre ++ filename_pattern ++ f.toList ++ dquote :: post ∧
         f.toList ≠ [] ∧ ∀ c ∈ f.toList, c ≠ nl) := by
  refine ⟨?_, ?_, ?_⟩
  · intro hnone
    unfold derive_filename
    rw [hnone]
  · intro d hd hno
    unfold derive_filename
    rw [hd]
    dsimp only
    rcases hf : find_filename d.toList with _ | cap
    · rfl
    · exfalso
      obtain ⟨pre, post, hsplit, hne, hnl⟩ := find_filename_sound _ _ hf
      exact hno ⟨pre, cap, post, hsplit, hne, hnl⟩
  · intro d f hd hok
    unfold derive_filename at hok
    rw [hd] at hok
    dsimp only at hok
    rcases hf : find_filename d.toList with _ | cap <;> rw [hf] at hok <;>
      dsimp only at hok
    · cases hok
    · injection hok with hok
      obtain ⟨pre, post, hsplit, hne, hnl⟩ := find_filename_sound _ _ hf
      subst hok
      exact ⟨pre, post, hsplit, hne, hnl⟩

/-- The ten-character string attachment is too short to contain a
filename token, whose occurrences need at least twelve characters. -/
theorem no_token_attachment : ¬ has_filename_token "attachment" := by
  rintro ⟨pre, cap, post, hsplit, hne, -⟩
  have hlen := congrArg List.length hsplit
  have hpat : filename_pattern.length = 10 := rfl
  have hcap : 1 ≤ cap.length := by
    cases cap with
    | nil => exact absurd rfl hne
    | cons _ _ => simp
  simp only [List.length_append, List.length_cons, hpat] at hlen
  have hs : ("attachment".toList).length = 10 := rfl
  omega

/-- Witness for derive_filename_spec: a response without the header, one
whose header has no filename token, and one with the token scene.tif. -/
theorem derive_filename_spec_witness :
    derive_filename [("Content-Type", "image/tiff")] =
        .error (.keyError "Content-Disposition") ∧
    derive_filename [("Content-Disposition", "attachment")] =
        .error PyError.indexError ∧
    (∃ pre post,
      ("attachment; filename=" ++ String.mk [dquote] ++ "scene.tif" ++
          String.mk [dquote]).toList =
        pre ++ filename_pattern ++ ("scene.tif" : String).toList ++ dquote :: post ∧
      ("scene.tif" : String).toList ≠ [] ∧ ∀ c ∈ ("scene.tif" : String).toList, c ≠ nl) :=
  ⟨(derive_filename_spec [("Content-Type", "image/tiff")]).1 (by rfl),
   (derive_filename_spec [("Content-Disposition", "attachment")]).2.1 "attachment"
      (by rfl) no_token_attachment,
   (derive_filename_spec [("Content-Disposition",
        "attachment; filename=" ++ String.mk [dquote] ++ "scene.tif" ++
          String.mk [dquote])]).2.2
      ("attachment; filename=" ++ String.mk [dquote] ++ "scene.tif" ++ String.mk [dquote])
      "scene.tif" (by rfl) (by rfl)⟩

/-- C9: whatever filename the regex captured from the server-supplied
Content-Disposition header is used verbatim - unchanged and unprefixed -
as the local path opened for writing, and the path download yields equals
that same captured string; no other input influences the path. -/
theorem download_path_verbatim (headers : List (String × String)) :
    (∀ r, download_one headers = .ok r →
       r.written_path = r.yielded ∧ derive_filename headers = .ok r.written_path) ∧
    (∀ d cap, headers_get headers "Content-Disposition" = some d →
       find_filename d.toList = some cap →
       download_one headers = .ok { written_path := String.mk cap,
                                    yielded := String.mk cap }) := by
  constructor
  · intro r hr
    unfold download_one at hr
    rcases hd : derive_filename headers with e | f <;> rw [hd] at hr
    · cases hr
    · injection hr with hr
      subst hr
      exact ⟨rfl, rfl⟩
  · intro d cap hd hf
    unfold download_one derive_filename
    rw [hd]
    dsimp only
    rw [hf]

/-- Witness for download_path_verbatim: a header naming a path-traversal
style filename is written to and yielded exactly as sent by the server. -/
theorem download_path_verbatim_witness :
    download_one [("Content-Disposition",
        "attachment; filename=" ++ String.mk [dquote] ++ "../../etc/passwd" ++
          String.mk [dquote])] =
      .ok { written_path := String.mk ("../../etc/passwd" : String).toList,
            yielded := String.mk ("../../etc/passwd" : String).toList } :=
  (download_path_verbatim [("Content-Disposition",
      "attachment; filename=" ++ String.mk [dquote] ++ "../../etc/passwd" ++
        String.mk [dquote])]).2
    ("attachment; filename=" ++ String.mk [dquote] ++ "../../etc/passwd" ++
      String.mk [dquote])
    ("../../etc/passwd" : String).toList (by rfl) (by rfl)

end PlanetAPI
